import Mathlib

/-!
Verification of the LoRa configuration-synchronization and OTA-cascade
protocol of the ESP32-Lora-Template firmware.

The definitions below are a shallow embedding of the protocol logic in
`src/main.cpp` and `src/app_logic.cpp`:

* pure C functions (`classifyPress`, `cycleIndex`) become Lean functions;
* the module-level mutable state of `main.cpp` (current radio parameters,
  cycle indices, pending config broadcast, LoRa OTA session) becomes
  explicit record types threaded through step functions;
* side effects on the radio / flash / NVS collaborators become an event
  trace (`Ev`);
* `float` radio parameters (`currentFreq` in MHz, `currentBW` in kHz) are
  modeled in tenths (integer number of 0.1 MHz / 0.1 kHz units); every
  value in the firmware's enumerated tables is exact in tenths, and the
  `printf`/`sscanf` formats used on the wire (`%.1f`, `%.0f`, `%f`) are
  modeled at that same precision, including `%.0f`'s round-half-to-even;
* `uint32` millisecond clocks are modeled as unbounded `Nat` timestamps,
  with the firmware's `uint32` subtraction modeled by `u32sub`.
-/

set_option autoImplicit false

/-! ### app_logic.cpp -/

/-- `ButtonAction` from `app_logic.h`. -/
inductive ButtonAction
  | Ignore
  | ToggleMode
  | CycleSF
  | CycleBW
deriving DecidableEq, Repr

/-- `classifyPress` from `app_logic.cpp` lines 4-9: classify a press by
its duration in milliseconds. -/
def classifyPress (pressDurationMs : Nat) : ButtonAction :=
  if pressDurationMs < 100 then ButtonAction.Ignore
  else if pressDurationMs < 1000 then ButtonAction.ToggleMode
  else if pressDurationMs < 3000 then ButtonAction.CycleSF
  else ButtonAction.CycleBW

/-- `cycleIndex` from `app_logic.cpp` lines 11-16 (C `int` arithmetic). -/
def cycleIndex (currentIndex : Int) (size : Int) : Int :=
  if size ≤ 0 then 0
  else if currentIndex + 1 ≥ size then 0
  else currentIndex + 1

/-- Plain n-fold iteration, used to state the cycling round-trip. -/
def iterN (f : Int → Int) : Nat → Int → Int
  | 0, x => x
  | k + 1, x => iterN f k (f x)

/-! ### Parameter tables from main.cpp lines 98-100.
Bandwidth values are in tenths of kHz so that 62.5 kHz is exact. -/

/-- `sfValues[] = {7, 8, 9, 10, 11, 12}` (main.cpp line 98). -/
def sfValues : List Nat := [7, 8, 9, 10, 11, 12]

/-- `bwValues[] = {62.5f, 125.0f, 250.0f, 500.0f}` (main.cpp line 99),
in tenths of kHz. -/
def bwValuesTenths : List Nat := [625, 1250, 2500, 5000]

/-- `txPowerValues[] = {2, 3, 5, 8, 10, 12, 15, 17, 20, 22}` (main.cpp line 100). -/
def txPowerValues : List Nat := [2, 3, 5, 8, 10, 12, 15, 17, 20, 22]

/-! ### Radio parameters (the five mutable `current*` globals, main.cpp 91-95) -/

/-- The five runtime radio parameters: frequency in tenths of MHz,
bandwidth in tenths of kHz, spreading factor, coding rate, TX power dBm. -/
structure RadioParams where
  freqTenths : Nat
  bwTenths : Nat
  sf : Nat
  cr : Nat
  txp : Nat
deriving DecidableEq, Repr

/-- Compile-time defaults `LORA_FREQ_MHZ = 915.0`, `LORA_BW_KHZ = 125.0`,
`LORA_SF = 9`, `LORA_CR = 5`, `LORA_TX_DBM = 17` (main.cpp 39-53). -/
def bootParams : RadioParams := ⟨9150, 1250, 9, 5, 17⟩

/-! ### Decimal digit printing and scanning (printf/sscanf model) -/

/-- One decimal digit as a character. -/
def digitChar (d : Nat) : Char :=
  match d with
  | 0 => '0' | 1 => '1' | 2 => '2' | 3 => '3' | 4 => '4'
  | 5 => '5' | 6 => '6' | 7 => '7' | 8 => '8' | _ => '9'

/-- Numeric value of a digit character. -/
def digitVal (c : Char) : Nat := c.toNat - 48

/-- Fuelled base-10 printer (structural recursion so the kernel can
evaluate it). -/
def natDigitsAux : Nat → Nat → List Char
  | 0, _ => []
  | fuel + 1, n =>
    if n < 10 then [digitChar n]
    else natDigitsAux fuel (n / 10) ++ [digitChar (n % 10)]

/-- Decimal digits of `n`, most significant first (model of `%d`/`%u`
output in `snprintf`). -/
def natDigits (n : Nat) : List Char := natDigitsAux (n + 1) n

/-- Accumulating scan loop: consume leading digit characters. -/
def parseDigitsLoop : Nat → List Char → Nat × List Char
  | acc, [] => (acc, [])
  | acc, c :: cs =>
    if c.isDigit then parseDigitsLoop (10 * acc + digitVal c) cs
    else (acc, c :: cs)

/-- Model of a `%u`/`%d` conversion in `sscanf`: requires at least one
digit, consumes the maximal digit run, returns value and rest. -/
def parseDigits (s : List Char) : Option (Nat × List Char) :=
  match s with
  | [] => none
  | c :: cs =>
    if c.isDigit then some (parseDigitsLoop (digitVal c) cs)
    else none

/-- Value of a digit string continuing an accumulator. -/
def digitsFold (acc : Nat) (ds : List Char) : Nat :=
  ds.foldl (fun a c => 10 * a + digitVal c) acc

/-- Match a literal character sequence (the literal parts of a `sscanf`
format string). -/
def expectLit : List Char → List Char → Option (List Char)
  | [], s => some s
  | _ :: _, [] => none
  | c :: cs, d :: ds => if c = d then expectLit cs ds else none

/-- Model of one `%f` conversion at tenths precision: integer part,
optionally `.` and fractional digits of which the first carries the
tenths (further fractional digits are consumed and discarded). -/
def parseFloatTenths (s : List Char) : Option (Nat × List Char) :=
  (parseDigits s).bind (fun ir =>
    match ir.2 with
    | [] => some (ir.1 * 10, [])
    | c :: r2 =>
      if c = '.' then
        match r2 with
        | [] => some (ir.1 * 10, [])
        | d :: r3 =>
          if d.isDigit then
            some (ir.1 * 10 + digitVal d, r3.dropWhile (fun x => x.isDigit))
          else some (ir.1 * 10, d :: r3)
      else some (ir.1 * 10, c :: r2))

/-- `%.1f` output for a nonnegative value given in tenths. -/
def fmtFixed1 (tenths : Nat) : List Char :=
  natDigits (tenths / 10) ++ ('.' :: [digitChar (tenths % 10)])

/-- Round a tenths value to a whole unit the way `printf("%.0f", …)`
does under the default rounding mode: round half to even. -/
def roundHalfEven (tenths : Nat) : Nat :=
  let q := tenths / 10
  let r := tenths % 10
  if r < 5 then q
  else if 5 < r then q + 1
  else if q % 2 = 0 then q else q + 1

/-- `%.0f` output for a nonnegative value given in tenths. -/
def fmtRound0 (tenths : Nat) : List Char := natDigits (roundHalfEven tenths)

/-! ### Wire-format literals -/

def litCfgF : List Char := ("CFG F=").data
def litBw : List Char := (" BW=").data
def litSf : List Char := (" SF=").data
def litCr : List Char := (" CR=").data
def litTx : List Char := (" TX=").data
def litCfgSp : List Char := ("CFG ").data
def litOtaStart : List Char := ("OTA_START:").data
def litOtaData : List Char := ("OTA_DATA:").data
def litOtaEnd : List Char := ("OTA_END:").data
def litOta : List Char := ("OTA_").data
def litFwAvail : List Char := ("FW_UPDATE_AVAILABLE").data
def litUpdateNow : List Char := ("UPDATE_NOW").data
def litRequestUpdate : List Char := ("REQUEST_UPDATE").data
def litUpdateAck : List Char := ("UPDATE_ACK").data
def litNoFirmware : List Char := ("NO_FIRMWARE").data
def litPingSeq : List Char := ("PING seq=").data

/-- `snprintf(msg, …, "CFG F=%.1f BW=%.0f SF=%d CR=%d TX=%d", …)`
(main.cpp lines 372-373 and 638-640). -/
def formatCfg (p : RadioParams) : List Char :=
  litCfgF ++ (fmtFixed1 p.freqTenths ++ (litBw ++ (fmtRound0 p.bwTenths ++
    (litSf ++ (natDigits p.sf ++ (litCr ++ (natDigits p.cr ++
      (litTx ++ natDigits p.txp))))))))

/-- `sscanf(rx, "CFG F=%f BW=%f SF=%d CR=%d TX=%d", …)` (main.cpp lines
411 and 716); `some` exactly when all five fields convert (`parsed == 5`). -/
def parseCfg (s : List Char) : Option RadioParams :=
  (expectLit litCfgF s).bind (fun s1 =>
  (parseFloatTenths s1).bind (fun fr =>
  (expectLit litBw fr.2).bind (fun s3 =>
  (parseFloatTenths s3).bind (fun br =>
  (expectLit litSf br.2).bind (fun s5 =>
  (parseDigits s5).bind (fun sr =>
  (expectLit litCr sr.2).bind (fun s7 =>
  (parseDigits s7).bind (fun cr2 =>
  (expectLit litTx cr2.2).bind (fun s9 =>
  (parseDigits s9).map (fun tr =>
    (⟨fr.1, br.1, sr.1, cr2.1, tr.1⟩ : RadioParams)))))))))))

/-- `snprintf(msg, …, "PING seq=%lu", seq)` (main.cpp line 679). -/
def pingMsg (n : Nat) : List Char := litPingSeq ++ natDigits n

/-! ### uint32 clock arithmetic -/

/-- `uint32` subtraction `a - b` of two millisecond timestamps, for
unbounded `Nat` timestamps: the value the firmware's 32-bit subtraction
computes on `a mod 2^32` and `b mod 2^32`. -/
def u32sub (a b : Nat) : Nat := (a + 4294967296 - b) % 4294967296

/-! ### Side-effect events

Calls on the external collaborators (radio, NVS store, flash writer)
are recorded as a trace instead of performed. -/

/-- External side effects of the protocol code. -/
inductive Ev
  /-- `radio.begin(freq, bw, sf, cr, 0x34, power)` -/
  | begin (p : RadioParams)
  /-- `radio.transmit(msg)` at a given loop timestamp -/
  | txMsg (msg : List Char) (atMs : Nat)
  /-- `updateRadioSettings()` pushing the given parameters -/
  | reconf (p : RadioParams)
  /-- `savePersistedSettings()` with the given parameters -/
  | save (p : RadioParams)
  /-- `Update.begin(expectedSize)` / `Update.write(buffer, bufferSize)` -/
  | flash (expectedSize : Nat) (image : List Nat)
deriving DecidableEq, Repr

/-! ### LoRa OTA session state (main.cpp lines 135-141) -/

/-- `sizeof(loraOtaBuffer)` (main.cpp line 138). -/
def loraOtaBufferCapacity : Nat := 1024

/-- The LoRa OTA globals: `loraOtaActive`, `loraOtaStartTime`,
`loraOtaTimeout`, `loraOtaBuffer`/`loraOtaBufferSize` (as a byte list),
`loraOtaExpectedSize`, `loraOtaReceivedSize`. -/
structure OtaState where
  active : Bool
  startTime : Nat
  timeoutMs : Nat
  buffer : List Nat
  expectedSize : Nat
  receivedSize : Nat
deriving DecidableEq, Repr

/-- Boot values of the OTA globals (main.cpp lines 135-141). -/
def initialOtaState : OtaState :=
  { active := false, startTime := 0, timeoutMs := 30000,
    buffer := [], expectedSize := 0, receivedSize := 0 }

/-- The `OTA_START:` branch of `handleLoraOtaPacket` (main.cpp 915-926).
`sscanf(packet, "OTA_START:%u:%u", &loraOtaExpectedSize, &loraOtaTimeout)`
assigns each converted field as soon as it converts, so a packet on which
only the first `%u` converts still overwrites `loraOtaExpectedSize`;
the session is (re)started only when `parsed == 2`. -/
def handleOtaStart (st : OtaState) (rest : List Char) (now : Nat) : OtaState :=
  match parseDigits rest with
  | none => st
  | some (n1, r1) =>
    match r1 with
    | [] => { st with expectedSize := n1 }
    | c :: r2 =>
      if c = ':' then
        match parseDigits r2 with
        | none => { st with expectedSize := n1 }
        | some (n2, _) =>
          { st with expectedSize := n1, timeoutMs := n2, active := true,
                    startTime := now, receivedSize := 0, buffer := [] }
      else { st with expectedSize := n1 }

/-- The payload a `%255s` conversion reads: up to 255 leading
non-whitespace characters. -/
def scanStr255 (s : List Char) : List Char :=
  (s.takeWhile (fun c => !c.isWhitespace)).take 255

/-- The `OTA_DATA:` branch of `handleLoraOtaPacket` (main.cpp 927-948):
`sscanf(packet, "OTA_DATA:%d:%255s", &chunk, data)` into locals, then
append iff `loraOtaBufferSize + dataLen < sizeof(loraOtaBuffer)`. -/
def handleOtaData (st : OtaState) (rest : List Char) : OtaState :=
  if st.active = false then st
  else
    match parseDigits rest with
    | none => st
    | some (_, r1) =>
      match r1 with
      | [] => st
      | c :: r2 =>
        if c = ':' then
          let data := scanStr255 r2
          if data.length = 0 then st
          else if st.buffer.length + data.length < loraOtaBufferCapacity then
            { st with buffer := st.buffer ++ data.map Char.toNat,
                      receivedSize := st.receivedSize + data.length }
          else st
        else st

/-- The `OTA_END:` branch of `handleLoraOtaPacket` (main.cpp 949-976):
flash iff `loraOtaReceivedSize >= loraOtaExpectedSize`; in every case the
branch ends with `loraOtaActive = false` (on flash success the device
restarts instead). -/
def handleOtaEnd (st : OtaState) : OtaState × List Ev :=
  if st.active = false then (st, [])
  else if st.expectedSize ≤ st.receivedSize then
    ({ st with active := false }, [Ev.flash st.expectedSize st.buffer])
  else ({ st with active := false }, [])

/-- `handleLoraOtaPacket` (main.cpp 914-977). The `startsWith` dispatch
guarantees the literal part of each `sscanf` format matches, so each
branch parses the packet after its prefix. -/
def handleLoraOtaPacket (st : OtaState) (packet : List Char) (now : Nat) :
    OtaState × List Ev :=
  if litOtaStart.isPrefixOf packet then
    (handleOtaStart st (packet.drop 10) now, [])
  else if litOtaData.isPrefixOf packet then
    (handleOtaData st (packet.drop 9), [])
  else if litOtaEnd.isPrefixOf packet then
    handleOtaEnd st
  else (st, [])

/-- `checkLoraOtaTimeout` (main.cpp 979-985). -/
def checkLoraOtaTimeout (st : OtaState) (now : Nat) : OtaState :=
  if st.active = true ∧ st.timeoutMs < u32sub now st.startTime then
    { st with active := false }
  else st

/-- Fold `handleLoraOtaPacket` over a list of (packet, timestamp) pairs,
collecting the emitted events. -/
def otaRunEvs : OtaState → List (List Char × Nat) → OtaState × List Ev
  | st, [] => (st, [])
  | st, (p, t) :: rest =>
    let r := handleLoraOtaPacket st p t
    let r2 := otaRunEvs r.1 rest
    (r2.1, r.2 ++ r2.2)

/-! ### Whole-node state (the module-level globals of main.cpp) -/

/-- The mutable module state relevant to the protocol: role flag,
committed radio parameters with their cycle indices, the pending config
broadcast, the timers of `loop`, and the OTA session. -/
structure NodeState where
  isSender : Bool
  cur : RadioParams
  sfIdx : Nat
  bwIdx : Nat
  txIdx : Nat
  pending : Bool
  pend : RadioParams
  cfgLastTxMs : Nat
  cfgRemaining : Int
  lastTxMs : Nat
  seq : Nat
  ota : OtaState
  packetCount : Nat
  lastPacketTime : Nat
deriving DecidableEq, Repr

/-- A receiver node right after boot with default settings
(main.cpp `setup`, indices from lines 103-105). -/
def bootState : NodeState :=
  { isSender := false, cur := bootParams, sfIdx := 2, bwIdx := 1, txIdx := 7,
    pending := false, pend := bootParams, cfgLastTxMs := 0, cfgRemaining := 0,
    lastTxMs := 0, seq := 0, ota := initialOtaState, packetCount := 0,
    lastPacketTime := 0 }

/-- First index of `v` in `l`, or `dflt` when absent: the `for`-loop
searches of `computeIndicesFromCurrent` and of the commit/apply paths
(main.cpp 241-251, 658-666, 725-733) leave the index unchanged when the
value is not in the table. -/
def findIdxD (l : List Nat) (v : Nat) (dflt : Nat) : Nat :=
  match l.findIdx? (fun x => x == v) with
  | some i => i
  | none => dflt

/-- `computeIndicesFromCurrent` (main.cpp 241-251). -/
def computeIndicesFromCurrent (s : NodeState) : NodeState :=
  { s with sfIdx := findIdxD sfValues s.cur.sf s.sfIdx,
           bwIdx := findIdxD bwValuesTenths s.cur.bwTenths s.bwIdx,
           txIdx := findIdxD txPowerValues s.cur.txp s.txIdx }

/-- `startConfigBroadcast` (main.cpp 229-239). -/
def startConfigBroadcast (s : NodeState) (target : RadioParams) : NodeState :=
  { s with pending := true, pend := target, cfgLastTxMs := 0, cfgRemaining := 8 }

/-- One iteration of the sender half of `loop` (main.cpp 635-694):
while a config broadcast is pending, retransmit the target `CFG` message
when both `now - lastTxMs >= 50` and `now - cfgLastTxMs >= 300`; after
the count is exhausted commit the pending parameters, recompute the
indices, reconfigure the radio and persist; otherwise ping every 2 s. -/
def senderLoopStep (s : NodeState) (now : Nat) : NodeState × List Ev :=
  if s.isSender = false then (s, [])
  else if s.pending = true then
    if 50 ≤ u32sub now s.lastTxMs ∧ 300 ≤ u32sub now s.cfgLastTxMs then
      let s1 : NodeState :=
        { s with cfgLastTxMs := now, cfgRemaining := s.cfgRemaining - 1 }
      if s1.cfgRemaining ≤ 0 then
        let s2 : NodeState :=
          computeIndicesFromCurrent
            { s1 with cur := s1.pend, pending := false, lastTxMs := now }
        (s2, [Ev.txMsg (formatCfg s.pend) now, Ev.reconf s.pend, Ev.save s.pend])
      else (s1, [Ev.txMsg (formatCfg s.pend) now])
    else (s, [])
  else
    if 2000 ≤ u32sub now s.lastTxMs then
      ({ s with seq := s.seq + 1, lastTxMs := now },
       [Ev.txMsg (pingMsg s.seq) now])
    else (s, [])

/-- Run the sender loop over a list of iteration timestamps. -/
def runSender : NodeState → List Nat → NodeState × List Ev
  | s, [] => (s, [])
  | s, t :: ts =>
    let r := senderLoopStep s t
    let r2 := runSender r.1 ts
    (r2.1, r.2 ++ r2.2)

/-- The receiver dispatch of `loop` (main.cpp 695-799) applied to one
successfully received packet: bump the packet counters, then handle
`CFG `, `OTA_`, the update-notification markers, and `REQUEST_UPDATE`
(modeled for the build without `ENABLE_WIFI_OTA`, which replies
`UPDATE_ACK` then `NO_FIRMWARE`). The RSSI/SNR display bookkeeping is
omitted (floats, display-only). -/
def processRxPacket (s : NodeState) (rx : List Char) (now : Nat) :
    NodeState × List Ev :=
  let s0 : NodeState :=
    { s with packetCount := s.packetCount + 1, lastPacketTime := now }
  if litCfgSp.isPrefixOf rx then
    match parseCfg rx with
    | some p =>
      (computeIndicesFromCurrent { s0 with cur := p },
       [Ev.reconf p, Ev.save p])
    | none => (s0, [])
  else if litOta.isPrefixOf rx then
    let r := handleLoraOtaPacket s0.ota rx now
    ({ s0 with ota := r.1 }, r.2)
  else if litFwAvail.isPrefixOf rx || litUpdateNow.isPrefixOf rx then
    if s0.isSender = true then (s0, [Ev.txMsg litRequestUpdate now]) else (s0, [])
  else if litRequestUpdate.isPrefixOf rx then
    if s0.isSender = false then
      (s0, [Ev.txMsg litUpdateAck now, Ev.txMsg litNoFirmware now])
    else (s0, [])
  else (s0, [])

/-! ### Control-channel excursions (main.cpp 361-435)

The radio results are oracles: `beginCtrlOk` is whether the initial
`radio.begin` on the control channel returns `RADIOLIB_ERR_NONE`, and for
the receive side `polls` lists the outcome of each `radio.receive` poll
inside the bounded window (`none` = timeout/garbage). -/

/-- Control-channel configuration: `CTRL_FREQ_MHZ = LORA_FREQ_MHZ`,
`CTRL_BW_KHZ = 125.0`, `CTRL_SF = 9`, `CTRL_CR = 5` (main.cpp 56-67),
transmitted with the node's current TX power. -/
def ctrlChannelParams (txp : Nat) : RadioParams := ⟨9150, 1250, 9, 5, txp⟩

/-- `broadcastConfigOnControlChannel` (main.cpp 361-389) as its trace of
radio calls. On control-channel `begin` failure the function returns at
once; otherwise it transmits the current config `times` times and then
issues the restoring `begin` with the operational parameters. -/
def broadcastConfigOnControlChannel (cur : RadioParams) (times : Nat)
    (beginCtrlOk : Bool) : List Ev :=
  if beginCtrlOk = false then [Ev.begin (ctrlChannelParams cur.txp)]
  else
    (Ev.begin (ctrlChannelParams cur.txp) ::
      List.replicate times (Ev.txMsg (formatCfg cur) 0)) ++ [Ev.begin cur]

/-- The polling loop of `tryReceiveConfigOnControlChannel` (main.cpp
402-425): apply the first fully parsed `CFG` message (recompute indices,
persist) and stop; drop everything else. -/
def tryReceiveCtrlLoop : NodeState → List (Option (List Char)) →
    NodeState × List Ev
  | st, [] => (st, [])
  | st, none :: rest => tryReceiveCtrlLoop st rest
  | st, some rx :: rest =>
    if litCfgSp.isPrefixOf rx then
      match parseCfg rx with
      | some p =>
        (computeIndicesFromCurrent { st with cur := p }, [Ev.save p])
      | none => tryReceiveCtrlLoop st rest
    else tryReceiveCtrlLoop st rest

/-- `tryReceiveConfigOnControlChannel` (main.cpp 391-435) as final state
plus trace. On control-channel `begin` failure it returns at once;
otherwise the restoring `begin` uses the possibly-updated parameters. -/
def tryReceiveConfigOnControlChannel (st : NodeState) (beginCtrlOk : Bool)
    (polls : List (Option (List Char))) : NodeState × List Ev :=
  if beginCtrlOk = false then (st, [Ev.begin (ctrlChannelParams st.cur.txp)])
  else
    ((tryReceiveCtrlLoop st polls).1,
     Ev.begin (ctrlChannelParams st.cur.txp) ::
       ((tryReceiveCtrlLoop st polls).2 ++
        [Ev.begin (tryReceiveCtrlLoop st polls).1.cur]))

/-! ### Event classifiers used in the statements -/

/-- Is this event a transmission of the `CFG` message for `target`? -/
def isCfgTxB (target : RadioParams) : Ev → Bool
  | Ev.txMsg m _ => m == formatCfg target
  | _ => false

def isReconfB : Ev → Bool
  | Ev.reconf _ => true
  | _ => false

def isSaveB : Ev → Bool
  | Ev.save _ => true
  | _ => false

def isFlashB : Ev → Bool
  | Ev.flash _ _ => true
  | _ => false

/-- The sub-trace of config transmissions, commits and persists. -/
def protoEvs (target : RadioParams) (evs : List Ev) : List Ev :=
  evs.filter (fun e => isCfgTxB target e || isReconfB e || isSaveB e)

/-- The timestamps of the transmissions of `target`'s `CFG` message. -/
def cfgTxTimes (target : RadioParams) (evs : List Ev) : List Nat :=
  evs.filterMap (fun e =>
    match e with
    | Ev.txMsg m t => if m == formatCfg target then some t else none
    | _ => none)

/-- Shorthand for the transmission event of `target`'s `CFG` message. -/
def txOf (target : RadioParams) (t : Nat) : Ev := Ev.txMsg (formatCfg target) t

/-- The run of the sender loop over timestamps `ts` right after
`startConfigBroadcast` initiated a broadcast of `target`. -/
def broadcastRun (s0 : NodeState) (target : RadioParams) (ts : List Nat) :
    NodeState × List Ev :=
  runSender (startConfigBroadcast s0 target) ts

/-! ### Helper lemmas: digits and scanning -/

/-- Head of the list, if any, is not a digit. -/
def noDigitHead : List Char → Prop
  | [] => True
  | c :: _ => c.isDigit = false

/-- Head of the list, if any, is neither a digit nor a dot (the
separator situation after a number inside a `CFG` message). -/
def sepHead : List Char → Prop
  | [] => True
  | c :: _ => c.isDigit = false ∧ c ≠ '.'

theorem sepHead_noDigitHead : ∀ {l : List Char}, sepHead l → noDigitHead l
  | [], _ => trivial
  | _ :: _, h => h.1

theorem digitChar_isDigit {d : Nat} (h : d < 10) :
    (digitChar d).isDigit = true := by
  interval_cases d <;> decide

theorem digitVal_digitChar {d : Nat} (h : d < 10) :
    digitVal (digitChar d) = d := by
  interval_cases d <;> decide

theorem natDigitsAux_spec :
    ∀ (fuel n : Nat), n < fuel →
      natDigitsAux fuel n ≠ [] ∧
      (∀ c ∈ natDigitsAux fuel n, c.isDigit = true) ∧
      (∀ acc, digitsFold acc (natDigitsAux fuel n) =
        acc * 10 ^ (natDigitsAux fuel n).length + n) := by
  intro fuel
  induction fuel with
  | zero => intro n h; omega
  | succ fuel ih =>
    intro n h
    have hstep : natDigitsAux (fuel + 1) n =
        if n < 10 then [digitChar n]
        else natDigitsAux fuel (n / 10) ++ [digitChar (n % 10)] := rfl
    by_cases h10 : n < 10
    · rw [hstep, if_pos h10]
      refine ⟨by simp, ?_, ?_⟩
      · intro c hc
        rw [List.mem_singleton] at hc
        rw [hc]
        exact digitChar_isDigit h10
      · intro acc
        simp only [digitsFold, List.foldl_cons, List.foldl_nil,
          List.length_singleton]
        rw [digitVal_digitChar h10, pow_one]
        ring
    · have hdiv : n / 10 < fuel := by
        have h1 : n / 10 < n := Nat.div_lt_self (by omega) (by omega)
        omega
      obtain ⟨hne, hdig, hval⟩ := ih (n / 10) hdiv
      rw [hstep, if_neg h10]
      refine ⟨by simp, ?_, ?_⟩
      · intro c hc
        rw [List.mem_append] at hc
        rcases hc with hc | hc
        · exact hdig c hc
        · rw [List.mem_singleton] at hc
          rw [hc]
          exact digitChar_isDigit (Nat.mod_lt n (by omega))
      · intro acc
        simp only [digitsFold] at hval ⊢
        rw [List.foldl_append]
        simp only [List.foldl_cons, List.foldl_nil]
        rw [hval acc, digitVal_digitChar (Nat.mod_lt n (by omega)),
          List.length_append, List.length_singleton, pow_succ]
        have h1 : 10 * (n / 10) + n % 10 = n := by omega
        calc 10 * (acc * 10 ^ (natDigitsAux fuel (n / 10)).length + n / 10) + n % 10
            = acc * (10 ^ (natDigitsAux fuel (n / 10)).length * 10) +
              (10 * (n / 10) + n % 10) := by ring
          _ = acc * (10 ^ (natDigitsAux fuel (n / 10)).length * 10) + n := by
              rw [h1]

theorem natDigits_ne_nil (n : Nat) : natDigits n ≠ [] :=
  (natDigitsAux_spec (n + 1) n (Nat.lt_succ_self n)).1

theorem natDigits_all_digits (n : Nat) :
    ∀ c ∈ natDigits n, c.isDigit = true :=
  (natDigitsAux_spec (n + 1) n (Nat.lt_succ_self n)).2.1

theorem natDigits_fold (n : Nat) (acc : Nat) :
    digitsFold acc (natDigits n) = acc * 10 ^ (natDigits n).length + n :=
  (natDigitsAux_spec (n + 1) n (Nat.lt_succ_self n)).2.2 acc

theorem parseDigitsLoop_append (ds : List Char) :
    ∀ (rest : List Char) (acc : Nat), (∀ c ∈ ds, c.isDigit = true) →
      noDigitHead rest →
      parseDigitsLoop acc (ds ++ rest) = (digitsFold acc ds, rest) := by
  induction ds with
  | nil =>
    intro rest acc _ hrest
    cases rest with
    | nil => simp [parseDigitsLoop, digitsFold]
    | cons c cs =>
      simp only [noDigitHead] at hrest
      simp [parseDigitsLoop, hrest, digitsFold]
  | cons d ds ih =>
    intro rest acc hds hrest
    have hd : d.isDigit = true := hds d (List.mem_cons_self d ds)
    rw [List.cons_append,
      show parseDigitsLoop acc (d :: (ds ++ rest)) =
        if d.isDigit = true then
          parseDigitsLoop (10 * acc + digitVal d) (ds ++ rest)
        else (acc, d :: (ds ++ rest)) from rfl,
      if_pos hd, ih rest _ (fun c hc => hds c (List.mem_cons_of_mem d hc)) hrest]
    rfl

theorem parseDigits_natDigits (n : Nat) (rest : List Char)
    (hrest : noDigitHead rest) :
    parseDigits (natDigits n ++ rest) = some (n, rest) := by
  cases hnd : natDigits n with
  | nil => exact absurd hnd (natDigits_ne_nil n)
  | cons c cs =>
    have hall := natDigits_all_digits n
    rw [hnd] at hall
    have hc : c.isDigit = true := hall c (List.mem_cons_self c cs)
    rw [List.cons_append,
      show parseDigits (c :: (cs ++ rest)) =
        if c.isDigit = true then some (parseDigitsLoop (digitVal c) (cs ++ rest))
        else none from rfl,
      if_pos hc,
      parseDigitsLoop_append cs rest _
        (fun x hx => hall x (List.mem_cons_of_mem c hx)) hrest]
    have hv := natDigits_fold n 0
    rw [hnd] at hv
    simp only [digitsFold, List.foldl_cons, Nat.mul_zero, Nat.zero_add,
      Nat.zero_mul] at hv
    simp only [digitsFold]
    rw [hv]

theorem dropWhile_noDigitHead (l : List Char) (h : noDigitHead l) :
    l.dropWhile (fun x => x.isDigit) = l := by
  cases l with
  | nil => rfl
  | cons c cs =>
    simp only [noDigitHead] at h
    simp [List.dropWhile, h]

theorem parseFloatTenths_fixed1 (t : Nat) (rest : List Char)
    (hrest : sepHead rest) :
    parseFloatTenths (fmtFixed1 t ++ rest) = some (t, rest) := by
  have hshape : fmtFixed1 t ++ rest =
      natDigits (t / 10) ++ ('.' :: digitChar (t % 10) :: rest) := by
    simp [fmtFixed1, List.append_assoc]
  have hnd : noDigitHead ('.' :: digitChar (t % 10) :: rest) := by
    show ('.').isDigit = false
    decide
  have hdig : (digitChar (t % 10)).isDigit = true :=
    digitChar_isDigit (Nat.mod_lt t (by omega))
  rw [hshape]
  simp only [parseFloatTenths]
  rw [parseDigits_natDigits (t / 10) _ hnd]
  simp only [Option.bind, hdig, if_pos rfl, if_true]
  rw [dropWhile_noDigitHead rest (sepHead_noDigitHead hrest),
    digitVal_digitChar (Nat.mod_lt t (by omega))]
  have ht : t / 10 * 10 + t % 10 = t := by omega
  rw [ht]

theorem parseFloatTenths_round0 (t : Nat) (rest : List Char)
    (ht : t % 10 = 0) (hrest : sepHead rest) :
    parseFloatTenths (fmtRound0 t ++ rest) = some (t, rest) := by
  have hround : roundHalfEven t = t / 10 := by
    simp [roundHalfEven, ht]
  have hmul : t / 10 * 10 = t := by omega
  rw [fmtRound0, hround]
  simp only [parseFloatTenths]
  rw [parseDigits_natDigits (t / 10) rest (sepHead_noDigitHead hrest)]
  cases rest with
  | nil => simp [Option.bind, hmul]
  | cons c cs =>
    have hne : c ≠ '.' := by
      simp only [sepHead] at hrest
      exact hrest.2
    simp [Option.bind, hne, hmul]

theorem expectLit_append (pre : List Char) :
    ∀ s : List Char, expectLit pre (pre ++ s) = some s := by
  induction pre with
  | nil => intro s; rfl
  | cons c cs ih => intro s; simp [expectLit, ih]

theorem sepHead_litBw_append (l : List Char) : sepHead (litBw ++ l) :=
  ⟨by decide, by decide⟩

theorem sepHead_litSf_append (l : List Char) : sepHead (litSf ++ l) :=
  ⟨by decide, by decide⟩

theorem noDigitHead_litCr_append (l : List Char) : noDigitHead (litCr ++ l) := by
  show (' ').isDigit = false
  decide

theorem noDigitHead_litTx_append (l : List Char) : noDigitHead (litTx ++ l) := by
  show (' ').isDigit = false
  decide

/-- Formatting then parsing a `CFG` message recovers the parameters,
provided the bandwidth is a whole number of kHz (otherwise `%.0f`
rounds it). -/
theorem parseCfg_formatCfg (p : RadioParams) (hbw : p.bwTenths % 10 = 0) :
    parseCfg (formatCfg p) = some p := by
  simp only [parseCfg, formatCfg]
  rw [expectLit_append]
  simp only [Option.some_bind]
  rw [parseFloatTenths_fixed1 p.freqTenths _ (sepHead_litBw_append _)]
  simp only [Option.some_bind]
  rw [expectLit_append]
  simp only [Option.some_bind]
  rw [parseFloatTenths_round0 p.bwTenths _ hbw (sepHead_litSf_append _)]
  simp only [Option.some_bind]
  rw [expectLit_append]
  simp only [Option.some_bind]
  rw [parseDigits_natDigits p.sf _ (noDigitHead_litCr_append _)]
  simp only [Option.some_bind]
  rw [expectLit_append]
  simp only [Option.some_bind]
  rw [parseDigits_natDigits p.cr _ (noDigitHead_litTx_append _)]
  simp only [Option.some_bind]
  rw [expectLit_append]
  simp only [Option.some_bind]
  rw [show natDigits p.txp = natDigits p.txp ++ [] from (List.append_nil _).symm,
    parseDigits_natDigits p.txp [] trivial]
  rfl

/-! ### Helper lemmas: uint32 clock and cycling -/

/-- If the firmware's 32-bit elapsed-time test `u32sub now last ≥ k`
passes for timestamps with `last ≤ now` and `k < 2^32`, at least `k`
milliseconds really elapsed. -/
theorem u32sub_elapsed {k now last : Nat} (hle : last ≤ now)
    (hk : k < 4294967296) (h : k ≤ u32sub now last) : last + k ≤ now := by
  unfold u32sub at h
  omega

theorem cycleIndex_eq_emod {i n : Int} (hn : 0 < n) (h0 : 0 ≤ i) (hi : i < n) :
    cycleIndex i n = (i + 1) % n := by
  unfold cycleIndex
  rw [if_neg (by omega)]
  by_cases h : i + 1 ≥ n
  · have h1 : i + 1 = n := by omega
    rw [if_pos h, h1, Int.emod_self]
  · rw [if_neg h, Int.emod_eq_of_lt (by omega) (by omega)]

theorem iterN_cycleIndex {n : Int} (hn : 0 < n) :
    ∀ (k : Nat) (i : Int), 0 ≤ i → i < n →
      iterN (fun j => cycleIndex j n) k i = (i + k) % n := by
  intro k
  induction k with
  | zero =>
    intro i h0 hi
    show i = (i + (0 : Nat)) % n
    rw [Nat.cast_zero, Int.add_zero, Int.emod_eq_of_lt h0 hi]
  | succ k ih =>
    intro i h0 hi
    show iterN (fun j => cycleIndex j n) k (cycleIndex i n) = (i + ((k : Nat) + 1 : Nat)) % n
    rw [cycleIndex_eq_emod hn h0 hi]
    rw [ih ((i + 1) % n) (Int.emod_nonneg _ (by omega)) (Int.emod_lt_of_pos _ hn)]
    rw [Int.emod_add_emod]
    congr 1
    push_cast
    ring

/-! ### Helper lemmas: prefixes and event traces -/

theorem isPrefixOf_append_self (l x : List Char) :
    l.isPrefixOf (l ++ x) = true := by
  induction l with
  | nil => simp [List.isPrefixOf]
  | cons c cs ih => simp [List.isPrefixOf, ih]

theorem pingMsg_beq_formatCfg (n : Nat) (p : RadioParams) :
    (pingMsg n == formatCfg p) = false := by
  rw [beq_eq_false_iff_ne]
  intro h
  have hp : (pingMsg n).head? = some 'P' := rfl
  have hc : (formatCfg p).head? = some 'C' := rfl
  rw [h, hc] at hp
  exact absurd hp (by decide)

theorem protoEvs_nil (p : RadioParams) : protoEvs p [] = [] := rfl

theorem cfgTxTimes_nil (p : RadioParams) : cfgTxTimes p [] = [] := rfl

theorem protoEvs_append (p : RadioParams) (l1 l2 : List Ev) :
    protoEvs p (l1 ++ l2) = protoEvs p l1 ++ protoEvs p l2 :=
  List.filter_append l1 l2

theorem cfgTxTimes_append (p : RadioParams) (l1 l2 : List Ev) :
    cfgTxTimes p (l1 ++ l2) = cfgTxTimes p l1 ++ cfgTxTimes p l2 :=
  List.filterMap_append l1 l2 _

theorem protoEvs_ping (p : RadioParams) (n t : Nat) :
    protoEvs p [Ev.txMsg (pingMsg n) t] = [] := by
  simp [protoEvs, List.filter, isCfgTxB, isReconfB, isSaveB,
    pingMsg_beq_formatCfg]

theorem cfgTxTimes_ping (p : RadioParams) (n t : Nat) :
    cfgTxTimes p [Ev.txMsg (pingMsg n) t] = [] := by
  simp [cfgTxTimes, List.filterMap, pingMsg_beq_formatCfg]

theorem protoEvs_txMsg (p : RadioParams) (t : Nat) :
    protoEvs p [Ev.txMsg (formatCfg p) t] = [Ev.txMsg (formatCfg p) t] := by
  simp [protoEvs, List.filter, isCfgTxB, isReconfB, isSaveB]

theorem cfgTxTimes_txMsg (p : RadioParams) (t : Nat) :
    cfgTxTimes p [Ev.txMsg (formatCfg p) t] = [t] := by
  simp [cfgTxTimes, List.filterMap]

theorem protoEvs_commit (p : RadioParams) (t : Nat) :
    protoEvs p [Ev.txMsg (formatCfg p) t, Ev.reconf p, Ev.save p] =
      [Ev.txMsg (formatCfg p) t, Ev.reconf p, Ev.save p] := by
  simp [protoEvs, List.filter, isCfgTxB, isReconfB, isSaveB]

theorem cfgTxTimes_commit (p : RadioParams) (t : Nat) :
    cfgTxTimes p [Ev.txMsg (formatCfg p) t, Ev.reconf p, Ev.save p] = [t] := by
  simp [cfgTxTimes, List.filterMap]
/-! ### Helper lemmas: the pending-config-broadcast protocol -/

theorem senderLoopStep_done (s : NodeState) (now : Nat)
    (h1 : s.isSender = true) (h2 : s.pending = false) :
    senderLoopStep s now =
      if 2000 ≤ u32sub now s.lastTxMs then
        ({ s with seq := s.seq + 1, lastTxMs := now },
         [Ev.txMsg (pingMsg s.seq) now])
      else (s, []) := by
  unfold senderLoopStep
  rw [if_neg (by simp [h1]), if_neg (by simp [h2])]

theorem runSender_done (target : RadioParams) :
    ∀ (ts : List Nat) (s : NodeState),
      s.isSender = true → s.pending = false → s.cur = target →
      (runSender s ts).1.pending = false ∧
      (runSender s ts).1.cur = target ∧
      (runSender s ts).1.isSender = true ∧
      protoEvs target (runSender s ts).2 = [] ∧
      cfgTxTimes target (runSender s ts).2 = [] := by
  intro ts
  induction ts with
  | nil => intro s h1 h2 h3; exact ⟨h2, h3, h1, rfl, rfl⟩
  | cons t ts ih =>
    intro s h1 h2 h3
    show (runSender (senderLoopStep s t).1 ts).1.pending = false ∧
      (runSender (senderLoopStep s t).1 ts).1.cur = target ∧
      (runSender (senderLoopStep s t).1 ts).1.isSender = true ∧
      protoEvs target ((senderLoopStep s t).2 ++ (runSender (senderLoopStep s t).1 ts).2) = [] ∧
      cfgTxTimes target ((senderLoopStep s t).2 ++ (runSender (senderLoopStep s t).1 ts).2) = []
    rw [senderLoopStep_done s t h1 h2]
    by_cases hg : 2000 ≤ u32sub t s.lastTxMs
    · rw [if_pos hg]
      obtain ⟨a, b, c, d, e⟩ :=
        ih { s with seq := s.seq + 1, lastTxMs := t } h1 h2 h3
      refine ⟨a, b, c, ?_, ?_⟩
      · rw [show ([Ev.txMsg (pingMsg s.seq) t] : List Ev) ++
            (runSender { s with seq := s.seq + 1, lastTxMs := t } ts).2 =
            [Ev.txMsg (pingMsg s.seq) t] ++
            (runSender { s with seq := s.seq + 1, lastTxMs := t } ts).2 from rfl,
          protoEvs_append, protoEvs_ping, d]
        rfl
      · rw [cfgTxTimes_append, cfgTxTimes_ping, e]
        rfl
    · rw [if_neg hg]
      obtain ⟨a, b, c, d, e⟩ := ih s h1 h2 h3
      refine ⟨a, b, c, ?_, ?_⟩
      · rw [show (([] : List Ev) ++ (runSender s ts).2) = (runSender s ts).2
          from rfl, d]
      · rw [show (([] : List Ev) ++ (runSender s ts).2) = (runSender s ts).2
          from rfl, e]

theorem runSender_pending_aux (target old : RadioParams) :
    ∀ (ts : List Nat) (s : NodeState),
      ts.Pairwise (· ≤ ·) →
      (∀ t ∈ ts, s.cfgLastTxMs ≤ t) →
      s.isSender = true → s.pending = true → s.pend = target → s.cur = old →
      1 ≤ s.cfgRemaining → s.cfgRemaining ≤ 8 →
      (((runSender s ts).1.pending = true ∧
        (runSender s ts).1.cur = old ∧
        (runSender s ts).1.isSender = true ∧
        (runSender s ts).1.pend = target ∧
        protoEvs target (runSender s ts).2 =
          (cfgTxTimes target (runSender s ts).2).map (txOf target) ∧
        ((cfgTxTimes target (runSender s ts).2).length : Int) =
          s.cfgRemaining - (runSender s ts).1.cfgRemaining ∧
        1 ≤ (runSender s ts).1.cfgRemaining ∧
        (runSender s ts).1.cfgRemaining ≤ s.cfgRemaining) ∨
       ((runSender s ts).1.pending = false ∧
        (runSender s ts).1.cur = target ∧
        (runSender s ts).1.isSender = true ∧
        protoEvs target (runSender s ts).2 =
          (cfgTxTimes target (runSender s ts).2).map (txOf target) ++
            [Ev.reconf target, Ev.save target] ∧
        ((cfgTxTimes target (runSender s ts).2).length : Int) = s.cfgRemaining)) ∧
      List.Chain' (fun a b => a + 300 ≤ b) (cfgTxTimes target (runSender s ts).2) ∧
      (∀ t ∈ cfgTxTimes target (runSender s ts).2, s.cfgLastTxMs + 300 ≤ t) := by
  intro ts
  induction ts with
  | nil =>
    intro s _ _ h1 h2 h3 h4 h5 h6
    refine ⟨Or.inl ⟨h2, h4, h1, h3, rfl, ?_, h5, le_refl _⟩, List.chain'_nil, ?_⟩
    · show ((([] : List Nat).length : Nat) : Int) = s.cfgRemaining - s.cfgRemaining
      simp
    · intro u hu
      exact absurd hu (List.not_mem_nil u)
  | cons t ts ih =>
    intro s hpw hlb h1 h2 h3 h4 h5 h6
    have hpw' : ts.Pairwise (· ≤ ·) := (List.pairwise_cons.mp hpw).2
    have hfw : ∀ u ∈ ts, t ≤ u := (List.pairwise_cons.mp hpw).1
    have hlbt : s.cfgLastTxMs ≤ t := hlb t (List.mem_cons_self t ts)
    have hlb2 : ∀ u ∈ ts, s.cfgLastTxMs ≤ u :=
      fun u hu => hlb u (List.mem_cons_of_mem t hu)
    simp only [runSender]
    by_cases hg : 50 ≤ u32sub t s.lastTxMs ∧ 300 ≤ u32sub t s.cfgLastTxMs
    · have helapsed : s.cfgLastTxMs + 300 ≤ t :=
        u32sub_elapsed hlbt (by norm_num) hg.2
      by_cases hc : s.cfgRemaining - 1 ≤ 0
      · -- final transmission: commit, reconfigure, persist, clear pending
        have hr1 : s.cfgRemaining = 1 := by omega
        have hstep : senderLoopStep s t =
            (computeIndicesFromCurrent
              { s with cur := target, pend := target, pending := false,
                       cfgLastTxMs := t, cfgRemaining := s.cfgRemaining - 1,
                       lastTxMs := t },
             [Ev.txMsg (formatCfg target) t, Ev.reconf target, Ev.save target]) := by
          unfold senderLoopStep
          rw [if_neg (by simp [h1]), if_pos h2, if_pos hg]
          dsimp only
          rw [if_pos hc, h3]
        rw [hstep]
        dsimp only
        obtain ⟨da, db, dc, dd, de⟩ :=
          runSender_done target ts
            (computeIndicesFromCurrent
              { s with cur := target, pend := target, pending := false,
                       cfgLastTxMs := t, cfgRemaining := s.cfgRemaining - 1,
                       lastTxMs := t })
            h1 rfl rfl
        rw [protoEvs_append, cfgTxTimes_append, dd, de, protoEvs_commit,
          cfgTxTimes_commit, List.append_nil, List.append_nil]
        refine ⟨Or.inr ⟨da, db, dc, ?_, ?_⟩, List.chain'_singleton t, ?_⟩
        · simp [txOf]
        · rw [hr1]
          simp
        · intro u hu
          rw [List.mem_singleton] at hu
          rw [hu]
          exact helapsed
      · -- intermediate transmission: decrement and stay pending
        have hstep : senderLoopStep s t =
            ({ s with cfgLastTxMs := t, cfgRemaining := s.cfgRemaining - 1 },
             [Ev.txMsg (formatCfg target) t]) := by
          unfold senderLoopStep
          rw [if_neg (by simp [h1]), if_pos h2, if_pos hg]
          dsimp only
          rw [if_neg hc, h3]
        rw [hstep]
        dsimp only
        set s1 : NodeState :=
          { s with cfgLastTxMs := t, cfgRemaining := s.cfgRemaining - 1 }
          with hs1
        obtain ⟨hd, hchain, hlbIH⟩ :=
          ih s1 hpw' hfw h1 h2 h3 h4
            (by show (1 : Int) ≤ s.cfgRemaining - 1; omega)
            (by show s.cfgRemaining - 1 ≤ (8 : Int); omega)
        rw [protoEvs_append, cfgTxTimes_append, protoEvs_txMsg, cfgTxTimes_txMsg,
          List.singleton_append]
        refine ⟨?_, ?_, ?_⟩
        · rcases hd with ⟨pa, pb, pc, pd, pe, pf, pg, ph⟩ | ⟨qa, qb, qc, qd, qe⟩
          · have pf' : ((cfgTxTimes target (runSender s1 ts).2).length : Int) =
                (s.cfgRemaining - 1) - (runSender s1 ts).1.cfgRemaining := pf
            have ph' : (runSender s1 ts).1.cfgRemaining ≤ s.cfgRemaining - 1 :=
              ph
            refine Or.inl ⟨pa, pb, pc, pd, ?_, ?_, pg, by omega⟩
            · rw [pe]
              simp [txOf]
            · rw [List.singleton_append, List.length_cons]
              push_cast
              omega
          · have qe' : ((cfgTxTimes target (runSender s1 ts).2).length : Int) =
                s.cfgRemaining - 1 := qe
            refine Or.inr ⟨qa, qb, qc, ?_, ?_⟩
            · rw [qd]
              simp [txOf]
            · rw [List.singleton_append, List.length_cons]
              push_cast
              omega
        · refine List.chain'_cons'.mpr ⟨?_, hchain⟩
          intro b hb
          have hb2 : b ∈ cfgTxTimes target (runSender s1 ts).2 :=
            List.mem_of_mem_head? hb
          show t + 300 ≤ b
          exact hlbIH b hb2
        · intro u hu
          rcases List.mem_cons.mp hu with hu | hu
          · rw [hu]
            exact helapsed
          · have h7 : t + 300 ≤ u := hlbIH u hu
            omega
    · -- gate closed: nothing happens this iteration
      have hstep : senderLoopStep s t = (s, []) := by
        unfold senderLoopStep
        rw [if_neg (by simp [h1]), if_pos h2, if_neg hg]
      rw [hstep]
      dsimp only
      simp only [List.nil_append]
      exact ih s hpw' hlb2 h1 h2 h3 h4 h5 h6

/-! ### Helper lemmas: the OTA session -/

theorem handleOtaStart_bufLen (st : OtaState) (r : List Char) (now : Nat)
    (h : st.buffer.length < loraOtaBufferCapacity) :
    (handleOtaStart st r now).buffer.length < loraOtaBufferCapacity := by
  unfold handleOtaStart
  repeat' split
  all_goals first
    | exact h
    | exact (show ([] : List Nat).length < loraOtaBufferCapacity from by decide)

theorem handleOtaData_bufLen (st : OtaState) (r : List Char)
    (h : st.buffer.length < loraOtaBufferCapacity) :
    (handleOtaData st r).buffer.length < loraOtaBufferCapacity := by
  unfold handleOtaData
  repeat' split
  all_goals try exact h
  all_goals dsimp only
  all_goals repeat' split
  all_goals try exact h
  all_goals dsimp only
  all_goals simp only [List.length_append, List.length_map]
  all_goals assumption

theorem handleLoraOtaPacket_bufLen (st : OtaState) (p : List Char) (now : Nat)
    (h : st.buffer.length < loraOtaBufferCapacity) :
    (handleLoraOtaPacket st p now).1.buffer.length < loraOtaBufferCapacity := by
  unfold handleLoraOtaPacket handleOtaEnd
  repeat' split
  all_goals first
    | exact handleOtaStart_bufLen st _ now h
    | exact handleOtaData_bufLen st _ h
    | exact h

theorem handleOtaStart_full (st : OtaState) (n t now : Nat) :
    handleLoraOtaPacket st (litOtaStart ++ (natDigits n ++ (':' :: natDigits t)))
        now =
      ({ st with expectedSize := n, timeoutMs := t, active := true,
                 startTime := now, receivedSize := 0, buffer := [] }, []) := by
  have h2 := parseDigits_natDigits t [] trivial
  rw [List.append_nil] at h2
  unfold handleLoraOtaPacket
  rw [if_pos (isPrefixOf_append_self _ _),
    show (10 : Nat) = litOtaStart.length from rfl, List.drop_left]
  unfold handleOtaStart
  rw [parseDigits_natDigits n (':' :: natDigits t)
    (by show (':').isDigit = false; decide)]
  dsimp only
  rw [if_pos rfl, h2]

theorem handleOtaData_inv (st : OtaState) (r : List Char)
    (hinv : st.active = true → st.receivedSize = st.buffer.length ∧
      st.buffer.length < loraOtaBufferCapacity ∧
      loraOtaBufferCapacity ≤ st.expectedSize) :
    (handleOtaData st r).active = true →
      (handleOtaData st r).receivedSize = (handleOtaData st r).buffer.length ∧
      (handleOtaData st r).buffer.length < loraOtaBufferCapacity ∧
      loraOtaBufferCapacity ≤ (handleOtaData st r).expectedSize := by
  unfold handleOtaData
  repeat' split
  all_goals try exact hinv
  all_goals dsimp only
  all_goals repeat' split
  all_goals try exact hinv
  intro hact
  obtain ⟨e1, e2, e3⟩ := hinv hact
  refine ⟨?_, ?_, e3⟩
  · simp only [List.length_append, List.length_map]
    omega
  · simp only [List.length_append, List.length_map]
    assumption

theorem otaStep_no_flash (st : OtaState) (p : List Char) (now : Nat)
    (hinv : st.active = true → st.receivedSize = st.buffer.length ∧
      st.buffer.length < loraOtaBufferCapacity ∧
      loraOtaBufferCapacity ≤ st.expectedSize)
    (hp : litOtaStart.isPrefixOf p = false) :
    ((handleLoraOtaPacket st p now).2.any isFlashB = false) ∧
    ((handleLoraOtaPacket st p now).1.active = true →
      (handleLoraOtaPacket st p now).1.receivedSize =
        (handleLoraOtaPacket st p now).1.buffer.length ∧
      (handleLoraOtaPacket st p now).1.buffer.length < loraOtaBufferCapacity ∧
      loraOtaBufferCapacity ≤ (handleLoraOtaPacket st p now).1.expectedSize) := by
  unfold handleLoraOtaPacket
  rw [hp, if_neg (show ¬(false = true) from by decide)]
  by_cases hd : litOtaData.isPrefixOf p
  · rw [if_pos hd]
    exact ⟨rfl, handleOtaData_inv st _ hinv⟩
  · rw [if_neg hd]
    by_cases he : litOtaEnd.isPrefixOf p
    · rw [if_pos he]
      unfold handleOtaEnd
      by_cases ha : st.active = false
      · rw [if_pos ha]
        exact ⟨rfl, hinv⟩
      · rw [if_neg ha]
        have hact : st.active = true := by
          revert ha
          cases st.active <;> simp
        obtain ⟨e1, e2, e3⟩ := hinv hact
        rw [if_neg (show ¬st.expectedSize ≤ st.receivedSize from by omega)]
        refine ⟨rfl, ?_⟩
        intro hfalse
        exact absurd hfalse (by simp)
    · rw [if_neg he]
      exact ⟨rfl, hinv⟩

theorem otaRun_no_flash :
    ∀ (msgs : List (List Char × Nat)) (st : OtaState),
      (st.active = true → st.receivedSize = st.buffer.length ∧
        st.buffer.length < loraOtaBufferCapacity ∧
        loraOtaBufferCapacity ≤ st.expectedSize) →
      (∀ m ∈ msgs, litOtaStart.isPrefixOf m.1 = false) →
      (otaRunEvs st msgs).2.any isFlashB = false := by
  intro msgs
  induction msgs with
  | nil => intro st _ _; rfl
  | cons m ms ih =>
    intro st hinv hm
    obtain ⟨m1, m2⟩ := m
    show ((handleLoraOtaPacket st m1 m2).2 ++
      (otaRunEvs (handleLoraOtaPacket st m1 m2).1 ms).2).any isFlashB = false
    rw [List.any_append]
    obtain ⟨s1, s2⟩ :=
      otaStep_no_flash st m1 m2 hinv (hm (m1, m2) (List.mem_cons_self _ _))
    rw [s1, ih _ s2 (fun u hu => hm u (List.mem_cons_of_mem _ hu))]
    rfl

/-! ### Claim theorems -/

/-- C6: `classifyPress` is a pure total function of the press duration:
`Ignore` below 100 ms, `ToggleMode` on [100, 1000), `CycleSF` on
[1000, 3000), `CycleBW` from 3000 ms up, with the claimed boundary
values, including `UINT32_MAX`. -/
theorem classifyPress_spec :
    (∀ d : Nat, d < 100 → classifyPress d = ButtonAction.Ignore) ∧
    (∀ d : Nat, 100 ≤ d → d < 1000 → classifyPress d = ButtonAction.ToggleMode) ∧
    (∀ d : Nat, 1000 ≤ d → d < 3000 → classifyPress d = ButtonAction.CycleSF) ∧
    (∀ d : Nat, 3000 ≤ d → classifyPress d = ButtonAction.CycleBW) ∧
    classifyPress 99 = ButtonAction.Ignore ∧
    classifyPress 100 = ButtonAction.ToggleMode ∧
    classifyPress 999 = ButtonAction.ToggleMode ∧
    classifyPress 1000 = ButtonAction.CycleSF ∧
    classifyPress 2999 = ButtonAction.CycleSF ∧
    classifyPress 3000 = ButtonAction.CycleBW ∧
    classifyPress 4294967295 = ButtonAction.CycleBW := by
  refine ⟨?_, ?_, ?_, ?_, by decide, by decide, by decide, by decide,
    by decide, by decide, by decide⟩ <;>
    intro d h <;> (try intro h2) <;> unfold classifyPress <;>
    split_ifs <;> first | rfl | omega

/-- Witness for C6 at a concrete in-range duration. -/
theorem classifyPress_spec_witness :
    classifyPress 500 = ButtonAction.ToggleMode :=
  classifyPress_spec.2.1 500 (by decide) (by decide)

/-- C8: `cycleIndex` keeps a valid index in range, applying it
`tableSize` times returns to the start, and the cycled value always lies
in the enumerated bandwidth / spreading-factor / TX-power table. -/
theorem cycle_tables_roundtrip :
    (∀ n i : Int, 0 < n → 0 ≤ i → i < n →
      0 ≤ cycleIndex i n ∧ cycleIndex i n < n) ∧
    (∀ n i : Int, 0 < n → 0 ≤ i → i < n →
      iterN (fun j => cycleIndex j n) n.toNat i = i) ∧
    (∀ i : Nat, i < 4 →
      bwValuesTenths.getD (cycleIndex i 4).toNat 0 ∈ bwValuesTenths) ∧
    (∀ i : Nat, i < 6 →
      sfValues.getD (cycleIndex i 6).toNat 0 ∈ sfValues) ∧
    (∀ i : Nat, i < 10 →
      txPowerValues.getD (cycleIndex i 10).toNat 0 ∈ txPowerValues) := by
  refine ⟨?_, ?_, ?_, ?_, ?_⟩
  · intro n i hn h0 hi
    rw [cycleIndex_eq_emod hn h0 hi]
    exact ⟨Int.emod_nonneg _ (by omega), Int.emod_lt_of_pos _ hn⟩
  · intro n i hn h0 hi
    rw [iterN_cycleIndex hn n.toNat i h0 hi,
      Int.toNat_of_nonneg (le_of_lt hn)]
    rw [show i + n = i + n * 1 from by ring, Int.add_mul_emod_self_left]
    exact Int.emod_eq_of_lt h0 hi
  · intro i hi
    interval_cases i <;> decide
  · intro i hi
    interval_cases i <;> decide
  · intro i hi
    interval_cases i <;> decide

/-- Witness for C8: cycling the six-entry SF table six times from index
2 returns to index 2. -/
theorem cycle_tables_roundtrip_witness :
    iterN (fun j => cycleIndex j 6) (Int.toNat 6) 2 = 2 :=
  cycle_tables_roundtrip.2.1 6 2 (by decide) (by decide) (by decide)

/-- C9: processing any received frame (CFG, OTA_*, FW_UPDATE_AVAILABLE,
UPDATE_NOW, REQUEST_UPDATE, or anything else) never changes the node
role flag `isSender`. -/
theorem rx_preserves_role :
    ∀ (s : NodeState) (rx : List Char) (now : Nat),
      (processRxPacket s rx now).1.isSender = s.isSender := by
  intro s rx now
  unfold processRxPacket
  dsimp only
  repeat' split
  all_goals rfl

/-- C5 counterexample: the enumerated bandwidth 62.5 kHz does not
round-trip: `%.0f` formats it as `"BW=62"` (round half to even), which
parses back as 62.0 kHz, not 62.5 kHz. -/
theorem cfg_roundtrip_bw625_counterexample :
    parseCfg (formatCfg ⟨9150, 625, 9, 5, 17⟩) ≠
      some (⟨9150, 625, 9, 5, 17⟩ : RadioParams) ∧
    parseCfg (formatCfg ⟨9150, 625, 9, 5, 17⟩) =
      some (⟨9150, 620, 9, 5, 17⟩ : RadioParams) := by
  constructor
  · decide
  · decide

/-- C5 (amended): formatting then parsing a `ControlMessage` recovers
the original `RadioParameters` exactly for every valid value whose
bandwidth is 125, 250 or 500 kHz; for bandwidth 62.5 kHz the `%.0f`
formatting rounds to 62 and the round-trip fails (see the
counterexample). -/
theorem cfg_roundtrip_integral_bw (p : RadioParams)
    (hbw : p.bwTenths = 1250 ∨ p.bwTenths = 2500 ∨ p.bwTenths = 5000)
    (_hsf : p.sf ∈ sfValues) (_htx : p.txp ∈ txPowerValues) :
    parseCfg (formatCfg p) = some p := by
  apply parseCfg_formatCfg
  rcases hbw with h | h | h <;> rw [h]

/-- Witness for C5 at the boot parameters. -/
theorem cfg_roundtrip_integral_bw_witness :
    parseCfg (formatCfg ⟨9150, 1250, 9, 5, 17⟩) =
      some (⟨9150, 1250, 9, 5, 17⟩ : RadioParams) :=
  cfg_roundtrip_integral_bw ⟨9150, 1250, 9, 5, 17⟩ (Or.inl rfl)
    (by decide) (by decide)

/-- C1 counterexample: an Active session with 500 of 1000 expected bytes
that receives `OTA_END:` is left inactive (back to Idle), not Active —
the handler clears `loraOtaActive` unconditionally. No flash is
attempted. -/
theorem otaEnd_short_counterexample :
    (handleLoraOtaPacket ⟨true, 0, 30000, [], 1000, 500⟩ litOtaEnd 0).1.active =
      false ∧
    (handleLoraOtaPacket ⟨true, 0, 30000, [], 1000, 500⟩ litOtaEnd 0).2 = [] := by
  constructor
  · decide
  · decide

/-- C1 (amended): in an Active session, receiving `OTA_END:` while the
received-byte counter is strictly below the expected size does not flash
(no `Update.begin`/`Update.write`), but it does end the session: the
active flag is cleared and the session returns to Idle (it does not stay
Active as the claim stated). -/
theorem otaEnd_short_no_flash_deactivates (st : OtaState) (now : Nat)
    (hact : st.active = true) (hlt : st.receivedSize < st.expectedSize) :
    handleLoraOtaPacket st litOtaEnd now = ({ st with active := false }, []) := by
  unfold handleLoraOtaPacket
  rw [if_neg (show ¬(litOtaStart.isPrefixOf litOtaEnd = true) from by decide),
    if_neg (show ¬(litOtaData.isPrefixOf litOtaEnd = true) from by decide),
    if_pos (show litOtaEnd.isPrefixOf litOtaEnd = true from by decide)]
  unfold handleOtaEnd
  rw [if_neg (show ¬(st.active = false) from by rw [hact]; decide),
    if_neg (show ¬st.expectedSize ≤ st.receivedSize from by omega)]

/-- Witness for C1 at a concrete short session. -/
theorem otaEnd_short_no_flash_deactivates_witness :
    handleLoraOtaPacket ⟨true, 0, 30000, [], 2000, 700⟩ litOtaEnd 5 =
      (⟨false, 0, 30000, [], 2000, 700⟩, []) :=
  otaEnd_short_no_flash_deactivates ⟨true, 0, 30000, [], 2000, 700⟩ 5
    rfl (by decide)

/-- C2: `sscanf(packet, "OTA_START:%u:%u", …)` stores each field as it
converts, so the malformed frame `"OTA_START:7"` (second field missing;
`parsed == 1 ≠ 2`) still overwrites the OTA session field
`loraOtaExpectedSize` — here an Active session expecting 2000 bytes ends
up expecting 7 while staying Active with its counters intact. -/
theorem otaStart_incomplete_parse_mutates_state :
    (processRxPacket { bootState with ota := ⟨true, 0, 30000, [], 2000, 0⟩ }
        (("OTA_START:7").data) 0).1.ota.expectedSize = 7 ∧
    (processRxPacket { bootState with ota := ⟨true, 0, 30000, [], 2000, 0⟩ }
        (("OTA_START:7").data) 0).1.ota.active = true ∧
    ({ bootState with
        ota := ⟨true, 0, 30000, [], 2000, 0⟩ } : NodeState).ota.expectedSize =
      2000 := by
  refine ⟨?_, ?_, ?_⟩ <;> decide

/-- C3 counterexample: when the initial `radio.begin` on the control
channel fails, `broadcastConfigOnControlChannel` returns immediately
without ever issuing a `begin` with the node's own data-channel
parameters (here SF7, different from the control channel's SF9). -/
theorem ctrl_excursion_begin_fail_counterexample :
    broadcastConfigOnControlChannel ⟨9150, 1250, 7, 5, 17⟩ 6 false =
      [Ev.begin (ctrlChannelParams 17)] ∧
    (broadcastConfigOnControlChannel ⟨9150, 1250, 7, 5, 17⟩ 6 false).contains
      (Ev.begin ⟨9150, 1250, 7, 5, 17⟩) = false := by
  constructor
  · decide
  · decide

/-- C3 (amended): whenever the initial switch to the control channel
succeeds, both excursion directions end their radio-call trace with a
`begin` carrying the node's currently intended data-channel parameters
(for the receive side, the parameters as possibly updated by an applied
`CFG`), whether or not any message was sent or received; when that
initial switch fails, the function returns at once with no restoring
reconfiguration. -/
theorem ctrl_excursion_always_restores :
    (∀ (cur : RadioParams) (times : Nat),
      (broadcastConfigOnControlChannel cur times true).getLast? =
        some (Ev.begin cur)) ∧
    (∀ (st : NodeState) (polls : List (Option (List Char))),
      ((tryReceiveConfigOnControlChannel st true polls).2).getLast? =
        some (Ev.begin (tryReceiveConfigOnControlChannel st true polls).1.cur)) ∧
    (∀ (cur : RadioParams) (times : Nat),
      broadcastConfigOnControlChannel cur times false =
        [Ev.begin (ctrlChannelParams cur.txp)]) ∧
    (∀ (st : NodeState) (polls : List (Option (List Char))),
      tryReceiveConfigOnControlChannel st false polls =
        (st, [Ev.begin (ctrlChannelParams st.cur.txp)])) := by
  refine ⟨?_, ?_, ?_, ?_⟩
  · intro cur times
    unfold broadcastConfigOnControlChannel
    rw [if_neg (show ¬(true = false) from by decide)]
    exact List.getLast?_concat _
  · intro st polls
    unfold tryReceiveConfigOnControlChannel
    rw [if_neg (show ¬(true = false) from by decide)]
    dsimp only
    rw [← List.cons_append]
    exact List.getLast?_concat _
  · intro cur times
    unfold broadcastConfigOnControlChannel
    rw [if_pos rfl]
  · intro st polls
    unfold tryReceiveConfigOnControlChannel
    rw [if_pos rfl]

/-- C7: the OTA buffer never overflows: every step of
`handleLoraOtaPacket` keeps the stored byte count strictly below the
1024-byte capacity (appends are guarded by
`bufferSize + dataLen < sizeof(loraOtaBuffer)`), and along any packet
sequence from boot the stored byte count stays below capacity. -/
theorem ota_buffer_never_overflows :
    (∀ (st : OtaState) (p : List Char) (now : Nat),
      st.buffer.length < loraOtaBufferCapacity →
      (handleLoraOtaPacket st p now).1.buffer.length < loraOtaBufferCapacity) ∧
    (∀ msgs : List (List Char × Nat),
      (otaRunEvs initialOtaState msgs).1.buffer.length <
        loraOtaBufferCapacity) := by
  constructor
  · exact fun st p now h => handleLoraOtaPacket_bufLen st p now h
  · have hrun : ∀ (msgs : List (List Char × Nat)) (st : OtaState),
        st.buffer.length < loraOtaBufferCapacity →
        (otaRunEvs st msgs).1.buffer.length < loraOtaBufferCapacity := by
      intro msgs
      induction msgs with
      | nil => intro st h; exact h
      | cons m ms ih =>
        intro st h
        obtain ⟨m1, m2⟩ := m
        show (otaRunEvs (handleLoraOtaPacket st m1 m2).1 ms).1.buffer.length <
          loraOtaBufferCapacity
        exact ih _ (handleLoraOtaPacket_bufLen st m1 m2 h)
    exact fun msgs => hrun msgs initialOtaState (by decide)

/-- Witness for C7: one step from an almost-full session stays in
bounds. -/
theorem ota_buffer_never_overflows_witness :
    (handleLoraOtaPacket ⟨true, 0, 30000, List.replicate 1000 65, 2000, 1000⟩
        (("OTA_DATA:1:XYZ").data) 0).1.buffer.length <
      loraOtaBufferCapacity :=
  ota_buffer_never_overflows.1 ⟨true, 0, 30000, List.replicate 1000 65, 2000, 1000⟩
    (("OTA_DATA:1:XYZ").data) 0
    (by rw [List.length_replicate]; decide)

/-- C10 counterexample: the flashing transition is reachable for a
session whose `OTA_START` announced 2000 ≥ 1024 bytes: the malformed
frame `"OTA_START:7"` (partial `sscanf`) overwrites the expected size
mid-session without resetting anything, after which 7 data bytes and
`OTA_END:` trigger the flash. -/
theorem ota_flash_reachable_counterexample :
    (handleLoraOtaPacket initialOtaState (("OTA_START:2000:30000").data)
        0).1.expectedSize = 2000 ∧
    loraOtaBufferCapacity ≤ 2000 ∧
    (otaRunEvs initialOtaState
      [((("OTA_START:2000:30000").data), 0),
       ((("OTA_START:7").data), 1),
       ((("OTA_DATA:0:AAAAAAA").data), 2),
       (litOtaEnd, 3)]).2.any isFlashB = true := by
  refine ⟨?_, ?_, ?_⟩ <;> decide

/-- C10 (amended): for every OTA session started by a well-formed
`OTA_START` announcing an expected size of at least the buffer capacity
(1024), as long as no further `OTA_START:`-prefixed frame arrives (a
partially parsed one would overwrite the expected size, see the
counterexample), the received-byte counter stays strictly below the
capacity and hence below the expected size, so no `OTA_END` can trigger
the flash: the run emits no flash event. -/
theorem ota_flash_unreachable_without_start_overwrite
    (st0 : OtaState) (n t now : Nat) (msgs : List (List Char × Nat))
    (hn : loraOtaBufferCapacity ≤ n)
    (hmsgs : ∀ m ∈ msgs, litOtaStart.isPrefixOf m.1 = false) :
    (otaRunEvs
      (handleLoraOtaPacket st0
        (litOtaStart ++ (natDigits n ++ (':' :: natDigits t))) now).1
      msgs).2.any isFlashB = false := by
  rw [handleOtaStart_full]
  apply otaRun_no_flash msgs _ _ hmsgs
  intro _
  exact ⟨rfl,
    show ([] : List Nat).length < loraOtaBufferCapacity from by decide, hn⟩

/-- Witness for C10: a 2000-byte session followed by a data frame and
`OTA_END:` never flashes. -/
theorem ota_flash_unreachable_without_start_overwrite_witness :
    (otaRunEvs
      (handleLoraOtaPacket initialOtaState
        (litOtaStart ++ (natDigits 2000 ++ (':' :: natDigits 30000))) 0).1
      [((("OTA_DATA:0:AAAAAAA").data), 1), (litOtaEnd, 2)]).2.any isFlashB =
      false :=
  ota_flash_unreachable_without_start_overwrite initialOtaState 2000 30000 0
    [((("OTA_DATA:0:AAAAAAA").data), 1), (litOtaEnd, 2)]
    (by decide) (by decide)

/-- C4: starting a config broadcast (`startConfigBroadcast`, repeat
count 8) and running the sender loop over any monotone sequence of
iteration timestamps: the node only ever transmits the target `CFG`
message, with at least 300 ms between consecutive transmissions; while
the broadcast is still pending the committed parameters are unchanged
and no reconfigure/persist has happened (the protocol events are exactly
the transmissions so far, `8 - cfgRemaining` of them); once the pending
flag clears, exactly 8 transmissions happened and they are followed —
only then — by the commit: `updateRadioSettings` and
`savePersistedSettings` with the target, which is now the committed
parameter set. -/
theorem config_broadcast_eight_then_commit (s0 : NodeState)
    (target : RadioParams) (ts : List Nat) (hsend : s0.isSender = true)
    (hts : ts.Pairwise (· ≤ ·)) :
    (((broadcastRun s0 target ts).1.pending = true ∧
      (broadcastRun s0 target ts).1.cur = s0.cur ∧
      protoEvs target (broadcastRun s0 target ts).2 =
        (cfgTxTimes target (broadcastRun s0 target ts).2).map (txOf target) ∧
      ((cfgTxTimes target (broadcastRun s0 target ts).2).length : Int) =
        8 - (broadcastRun s0 target ts).1.cfgRemaining ∧
      1 ≤ (broadcastRun s0 target ts).1.cfgRemaining) ∨
     ((broadcastRun s0 target ts).1.pending = false ∧
      (broadcastRun s0 target ts).1.cur = target ∧
      protoEvs target (broadcastRun s0 target ts).2 =
        (cfgTxTimes target (broadcastRun s0 target ts).2).map (txOf target) ++
          [Ev.reconf target, Ev.save target] ∧
      (cfgTxTimes target (broadcastRun s0 target ts).2).length = 8)) ∧
    List.Chain' (fun a b => a + 300 ≤ b)
      (cfgTxTimes target (broadcastRun s0 target ts).2) := by
  unfold broadcastRun
  obtain ⟨hd, hchain, _⟩ :=
    runSender_pending_aux target s0.cur ts (startConfigBroadcast s0 target)
      hts (fun t _ => Nat.zero_le t) hsend rfl rfl rfl
      (show (1 : Int) ≤ 8 from by decide) (show (8 : Int) ≤ 8 from by decide)
  refine ⟨?_, hchain⟩
  rcases hd with ⟨pa, pb, _, _, pe, pf, pg, _⟩ | ⟨qa, qb, _, qd, qe⟩
  · exact Or.inl ⟨pa, pb, pe, pf, pg⟩
  · refine Or.inr ⟨qa, qb, qd, ?_⟩
    have qe' : ((cfgTxTimes target
        (runSender (startConfigBroadcast s0 target) ts).2).length : Int) =
        (8 : Int) := qe
    exact_mod_cast qe'

/-- Witness for C4: a sender broadcasting SF10 over eight loop
iterations spaced exactly 300 ms apart completes the broadcast. -/
theorem config_broadcast_eight_then_commit_witness :
    (((broadcastRun { bootState with isSender := true } ⟨9150, 1250, 10, 5, 17⟩
        [300, 600, 900, 1200, 1500, 1800, 2100, 2400]).1.pending = true ∧
      (broadcastRun { bootState with isSender := true } ⟨9150, 1250, 10, 5, 17⟩
        [300, 600, 900, 1200, 1500, 1800, 2100, 2400]).1.cur = bootParams ∧
      protoEvs ⟨9150, 1250, 10, 5, 17⟩
        (broadcastRun { bootState with isSender := true } ⟨9150, 1250, 10, 5, 17⟩
          [300, 600, 900, 1200, 1500, 1800, 2100, 2400]).2 =
        (cfgTxTimes ⟨9150, 1250, 10, 5, 17⟩
          (broadcastRun { bootState with isSender := true } ⟨9150, 1250, 10, 5, 17⟩
            [300, 600, 900, 1200, 1500, 1800, 2100, 2400]).2).map
          (txOf ⟨9150, 1250, 10, 5, 17⟩) ∧
      ((cfgTxTimes ⟨9150, 1250, 10, 5, 17⟩
          (broadcastRun { bootState with isSender := true } ⟨9150, 1250, 10, 5, 17⟩
            [300, 600, 900, 1200, 1500, 1800, 2100, 2400]).2).length : Int) =
        8 - (broadcastRun { bootState with isSender := true } ⟨9150, 1250, 10, 5, 17⟩
          [300, 600, 900, 1200, 1500, 1800, 2100, 2400]).1.cfgRemaining ∧
      1 ≤ (broadcastRun { bootState with isSender := true } ⟨9150, 1250, 10, 5, 17⟩
        [300, 600, 900, 1200, 1500, 1800, 2100, 2400]).1.cfgRemaining) ∨
     ((broadcastRun { bootState with isSender := true } ⟨9150, 1250, 10, 5, 17⟩
        [300, 600, 900, 1200, 1500, 1800, 2100, 2400]).1.pending = false ∧
      (broadcastRun { bootState with isSender := true } ⟨9150, 1250, 10, 5, 17⟩
        [300, 600, 900, 1200, 1500, 1800, 2100, 2400]).1.cur =
        ⟨9150, 1250, 10, 5, 17⟩ ∧
      protoEvs ⟨9150, 1250, 10, 5, 17⟩
        (broadcastRun { bootState with isSender := true } ⟨9150, 1250, 10, 5, 17⟩
          [300, 600, 900, 1200, 1500, 1800, 2100, 2400]).2 =
        (cfgTxTimes ⟨9150, 1250, 10, 5, 17⟩
          (broadcastRun { bootState with isSender := true } ⟨9150, 1250, 10, 5, 17⟩
            [300, 600, 900, 1200, 1500, 1800, 2100, 2400]).2).map
          (txOf ⟨9150, 1250, 10, 5, 17⟩) ++
          [Ev.reconf ⟨9150, 1250, 10, 5, 17⟩, Ev.save ⟨9150, 1250, 10, 5, 17⟩] ∧
      (cfgTxTimes ⟨9150, 1250, 10, 5, 17⟩
        (broadcastRun { bootState with isSender := true } ⟨9150, 1250, 10, 5, 17⟩
          [300, 600, 900, 1200, 1500, 1800, 2100, 2400]).2).length = 8)) ∧
    List.Chain' (fun a b => a + 300 ≤ b)
      (cfgTxTimes ⟨9150, 1250, 10, 5, 17⟩
        (broadcastRun { bootState with isSender := true } ⟨9150, 1250, 10, 5, 17⟩
          [300, 600, 900, 1200, 1500, 1800, 2100, 2400]).2) :=
  config_broadcast_eight_then_commit { bootState with isSender := true }
    ⟨9150, 1250, 10, 5, 17⟩ [300, 600, 900, 1200, 1500, 1800, 2100, 2400]
    rfl (by decide)
